import Mathlib

/-!
Shallow embedding of `src/Controller_Script/ts_test_controller.py`.

The program drives a solenoid controller over a serial link.  `logger`
fires one state change immediately, then loops: each iteration polls the
keyboard (`msvcrt.kbhit`/`getch`) and, if no key is pending, fires an
automatic state change once `command_cycle_period*60` seconds have
elapsed since the last change; automatic changes increment `cycle_n`,
which starts at 1 and terminates the loop at 20.  Each state change
(`change_system_state`) sends one byte, records a timestamp row in the
System State Table, and rewrites the whole table to the CSV file.  After
the loop one synthetic row is appended and the table is written once more.

Clock values are modelled as integers (seconds since the epoch, at whole-second resolution) and the period in whole minutes; the wall
clock readings `time.time()` / `datetime.datetime.now()` taken inside
one state change are merged into a single `now` value supplied by the
environment.  Keyboard input is modelled as an optional byte per loop
iteration (the byte `48` is the ASCII digit `0`, i.e. Python's `b'0'`).
-/

namespace TS

/-- One row of the System State Table: the timestamp (as a clock value)
and the state string written to the `System State` column. -/
structure Row where
  ts : ℤ
  state : String
  deriving DecidableEq

/-- The program state threaded through the run.

`toggle`, `rows` (the `dic` columns, as a list of rows), and
`lastChange` (`last_state_change_time`) are the source's variables;
`cycleN` is the loop counter `cycle_n`.  `bytesSent` counts the bytes
written to the serial port and `writes` records every snapshot handed
to `to_csv`; `autoFired`/`manualFired` are ghost counters of the two
loop branches — all four are write-only instrumentation absent from the
source, never read by the control flow. -/
structure CState where
  toggle : Bool
  rows : List Row
  lastChange : ℤ
  bytesSent : ℕ
  writes : List (List Row)
  cycleN : ℕ
  autoFired : ℕ
  manualFired : ℕ
  deriving DecidableEq

/-- What the environment supplies to one iteration of the while loop:
the current clock value and the pending key byte, if any
(`msvcrt.kbhit()` true and `msvcrt.getch()` returning that byte). -/
structure Event where
  now : ℤ
  key : Option ℕ
  deriving DecidableEq

/-- State before `logger` runs: toggle 0 (Off), empty table, nothing
sent or written.  `lastChange` is a placeholder overwritten by the
first `change_system_state`; `cycle_n` is set to 1 by `logger` after
the first state change. -/
def initState : CState :=
  { toggle := false, rows := [], lastChange := 0, bytesSent := 0,
    writes := [], cycleN := 0, autoFired := 0, manualFired := 0 }

/-- `change_system_state` (lines 61-132): send one byte (`ser.write`),
record `last_state_change_time = time.time()`, append the timestamp row
with state `'Off'` if `toggle` was 1 and `'On'` if it was 0, write the
whole table to CSV, and flip `toggle`. -/
def change_system_state (now : ℤ) (st : CState) : CState :=
  let r : Row := { ts := now, state := if st.toggle then "Off" else "On" }
  { st with
    bytesSent := st.bytesSent + 1,
    lastChange := now,
    rows := st.rows ++ [r],
    writes := st.writes ++ [st.rows ++ [r]],
    toggle := !st.toggle }

/-- Lines 164-168: the first state change, fired unconditionally when
the run starts (at clock value `t0`), followed by `cycle_n = 1`. -/
def loggerInit (t0 : ℤ) : CState :=
  { change_system_state t0 initState with cycleN := 1 }

/-- One iteration of the while loop (lines 169-179), given the
environment's clock value and pending key.  While `cycle_n < 20`:
if a key is pending it is consumed, and only the byte `b'0'` fires a
(manual) state change; otherwise an automatic state change fires once
`command_cycle_period*60` seconds have elapsed since the last change,
and `cycle_n` is incremented.  `pm` is `command_cycle_period` in
minutes. -/
def loopStep (pm : ℤ) (st : CState) (ev : Event) : CState :=
  if st.cycleN < 20 then
    match ev.key with
    | some k =>
      if k = 48 then
        { change_system_state ev.now st with manualFired := st.manualFired + 1 }
      else st
    | none =>
      if pm * 60 ≤ ev.now - st.lastChange then
        { change_system_state ev.now st with
            cycleN := st.cycleN + 1, autoFired := st.autoFired + 1 }
      else st
  else st

/-- The while loop over a finite trace of iteration events.  Once
`cycle_n` reaches 20 every further event is absorbed unchanged, which
models the loop having exited. -/
def runLoop (pm : ℤ) (st : CState) (evs : List Event) : CState :=
  evs.foldl (loopStep pm) st

/-- `logger` (lines 134-188) as a function of the environment: the
initial state change at `t0`, the while loop over `evs`, then the
synthetic final row at `datetime.datetime.now()` (the clock value
`sNow` at loop exit) plus `command_cycle_period*60/2` seconds, state
`'On'`, and one final CSV write. -/
def logger (pm t0 : ℤ) (evs : List Event) (sNow : ℤ) : CState :=
  let st := runLoop pm (loggerInit t0) evs
  let syn : Row := { ts := sNow + pm * 60 / 2, state := "On" }
  { st with rows := st.rows ++ [syn], writes := st.writes ++ [st.rows ++ [syn]] }

/-- The sequence of snapshots produced by writing the whole table after
each of its rows was appended: the (k+1)-row prefix for each k. -/
def tablePrefixes (rows : List Row) : List (List Row) :=
  (List.range rows.length).map (fun k => rows.take (k + 1))

/-- A complete-run event trace with no manual overrides: a 60-second
command cycle period elapses before each of the 19 loop iterations that
fire. -/
def wEvs : List Event :=
  [{ now := 60, key := none }, { now := 120, key := none }, { now := 180, key := none },
   { now := 240, key := none }, { now := 300, key := none }, { now := 360, key := none },
   { now := 420, key := none }, { now := 480, key := none }, { now := 540, key := none },
   { now := 600, key := none }, { now := 660, key := none }, { now := 720, key := none },
   { now := 780, key := none }, { now := 840, key := none }, { now := 900, key := none },
   { now := 960, key := none }, { now := 1020, key := none }, { now := 1080, key := none },
   { now := 1140, key := none }]

/-- `change_system_state` when `ser.write` may fail: the write is the
first statement of the function, so on failure the exception propagates
with the state exactly as it was — no byte counted, no row appended, no
CSV write.  `ok` tells whether the serial write is accepted. -/
def change_f (ok : Bool) (now : ℤ) (st : CState) : Except CState CState :=
  if ok then Except.ok (change_system_state now st) else Except.error st

/-- One while-loop iteration when serial writes may fail.  `ok` maps
the index of a send (0-based, `st.bytesSent` at the moment of sending)
to whether the device accepts it; a raised exception aborts the run, so
an error state absorbs all later events. -/
def loopStepF (pm : ℤ) (ok : ℕ → Bool) (e : Except CState CState) (ev : Event) :
    Except CState CState :=
  match e with
  | Except.error st => Except.error st
  | Except.ok st =>
    if st.cycleN < 20 then
      match ev.key with
      | some k =>
        if k = 48 then
          match change_f (ok st.bytesSent) ev.now st with
          | Except.error s => Except.error s
          | Except.ok s => Except.ok { s with manualFired := st.manualFired + 1 }
        else Except.ok st
      | none =>
        if pm * 60 ≤ ev.now - st.lastChange then
          match change_f (ok st.bytesSent) ev.now st with
          | Except.error s => Except.error s
          | Except.ok s =>
            Except.ok { s with cycleN := st.cycleN + 1, autoFired := st.autoFired + 1 }
        else Except.ok st
    else Except.ok st

/-- The run (initial state change plus while loop) when serial writes
may fail.  The synthetic final row and final CSV write are below the
loop in `logger`, so they never happen once an exception has been
raised. -/
def runF (pm : ℤ) (ok : ℕ → Bool) (t0 : ℤ) (evs : List Event) : Except CState CState :=
  evs.foldl (loopStepF pm ok)
    (match change_f (ok 0) t0 initState with
     | Except.error s => Except.error s
     | Except.ok s => Except.ok { s with cycleN := 1 })

/-- Extract the state carried by either constructor. -/
def exceptState (e : Except CState CState) : CState :=
  match e with
  | Except.error s => s
  | Except.ok s => s

/-- The decimal digit character of `n % 10`. -/
def digitChar (n : ℕ) : Char := Char.ofNat (48 + n % 10)

/-- Two-digit zero-padded decimal, as produced by `strftime` fields
such as `%m`, `%d`, `%H`, `%M`, `%S` (faithful for values below 100). -/
def pad2 (n : ℕ) : String := String.mk [digitChar (n / 10), digitChar n]

/-- Four-digit decimal, as produced by `strftime`'s `%Y` for calendar
years (faithful for values below 10000). -/
def pad4 (n : ℕ) : String :=
  String.mk [digitChar (n / 1000), digitChar (n / 100), digitChar (n / 10), digitChar n]

/-- The fields of a `datetime.datetime` that `get_timestamp` reads. -/
structure DateTime where
  year : ℕ
  month : ℕ
  day : ℕ
  hour : ℕ
  minute : ℕ
  second : ℕ
  deriving DecidableEq

/-- A value `datetime.datetime.now()` can actually take. -/
def validDt (t : DateTime) : Prop :=
  t.year < 10000 ∧ 1 ≤ t.month ∧ t.month ≤ 12 ∧ 1 ≤ t.day ∧ t.day ≤ 31 ∧
    t.hour < 24 ∧ t.minute < 60 ∧ t.second < 60

/-- `get_timestamp` (lines 51-59):
`datetime.datetime.strftime(current_time, "%Y-%m-%d %H:%M:%S")`. -/
def get_timestamp (t : DateTime) : String :=
  pad4 t.year ++ "-" ++ pad2 t.month ++ "-" ++ pad2 t.day ++ " " ++
    pad2 t.hour ++ ":" ++ pad2 t.minute ++ ":" ++ pad2 t.second

/-- Whether a string is exactly of the shape `YYYY-MM-DD HH:MM:SS`. -/
def checkTimestampFormat (s : String) : Bool :=
  match s.data with
  | [y1, y2, y3, y4, d1, m1, m2, d2, a1, a2, sp, h1, h2, c1, i1, i2, c2, s1, s2] =>
    y1.isDigit && y2.isDigit && y3.isDigit && y4.isDigit && d1 == '-' &&
      m1.isDigit && m2.isDigit && d2 == '-' && a1.isDigit && a2.isDigit &&
      sp == ' ' && h1.isDigit && h2.isDigit && c1 == ':' && i1.isDigit &&
      i2.isDigit && c2 == ':' && s1.isDigit && s2.isDigit
  | _ => false

/-- The lines `pandas.DataFrame(dic).to_csv(writeFile, index=False)`
writes for a snapshot of the table: the header row naming the two
columns, then one `timestamp,state` line per row, the timestamp cell
rendered from the clock value by `fmt`. -/
def to_csv (fmt : ℤ → String) (rows : List Row) : List String :=
  "Timestamp,System State" :: rows.map (fun r => fmt r.ts ++ "," ++ r.state)

/-- The log and the persisted file account exactly for the accepted
sends: one row per byte the device accepted, and the file rewritten
with the full table at each row. -/
def persistConsistent (st : CState) : Prop :=
  st.rows.length = st.bytesSent ∧ st.writes = tablePrefixes st.rows

end TS

namespace TS

/-- Every `System State` cell holds one of the two literal strings the
source writes. -/
def statesOk (rows : List Row) : Prop :=
  ∀ r ∈ rows, r.state = "On" ∨ r.state = "Off"

/-- Invariant of the loop state, established by the initial state
change and preserved by every iteration. -/
structure Inv (st : CState) : Prop where
  ne : st.rows ≠ []
  alt : List.Chain' (fun a b => a.state ≠ b.state) st.rows
  lastSt : st.rows.getLast?.map Row.state = some (if st.toggle then "On" else "Off")
  lenBytes : st.rows.length = st.bytesSent
  lenCount : st.rows.length = 1 + st.autoFired + st.manualFired
  cyc : st.cycleN = 1 + st.autoFired
  wr : st.writes = tablePrefixes st.rows
  states : statesOk st.rows

theorem tablePrefixes_concat (rows : List Row) (r : Row) :
    tablePrefixes (rows ++ [r]) = tablePrefixes rows ++ [rows ++ [r]] := by
  unfold tablePrefixes
  rw [List.length_append, List.length_singleton, List.range_succ, List.map_append]
  congr 1
  · apply List.map_congr_left
    intro k hk
    rw [List.mem_range] at hk
    exact List.take_append_of_le_length (by omega)
  · simp

theorem chain'_concat_of_lastState (rows : List Row) (r : Row) (s : String)
    (halt : List.Chain' (fun a b => a.state ≠ b.state) rows)
    (hlast : rows.getLast?.map Row.state = some s)
    (hr : r.state ≠ s) :
    List.Chain' (fun a b => a.state ≠ b.state) (rows ++ [r]) := by
  rw [List.chain'_append]
  refine ⟨halt, List.chain'_singleton r, ?_⟩
  intro x hx y hy
  rw [List.head?_cons, Option.mem_some_iff] at hy
  rw [Option.mem_def] at hx
  rw [hx, Option.map_some'] at hlast
  have hxs : x.state = s := by
    exact Option.some_injective _ hlast
  rw [← hy]
  rw [hxs]
  exact fun hcontra => hr hcontra.symm

/-- The structural parts of the invariant survive one
`change_system_state` call. -/
theorem inv_change (now : ℤ) (st : CState) (h : Inv st) :
    (change_system_state now st).rows ≠ [] ∧
    List.Chain' (fun a b => a.state ≠ b.state) (change_system_state now st).rows ∧
    (change_system_state now st).rows.getLast?.map Row.state =
      some (if (change_system_state now st).toggle then "On" else "Off") ∧
    (change_system_state now st).rows.length = (change_system_state now st).bytesSent ∧
    (change_system_state now st).rows.length = st.rows.length + 1 ∧
    (change_system_state now st).writes = tablePrefixes (change_system_state now st).rows ∧
    statesOk (change_system_state now st).rows := by
  have hrows : (change_system_state now st).rows =
      st.rows ++ [{ ts := now, state := if st.toggle then "Off" else "On" }] := rfl
  refine ⟨?_, ?_, ?_, ?_, ?_, ?_, ?_⟩
  · rw [hrows]; simp
  · rw [hrows]
    apply chain'_concat_of_lastState st.rows _ (if st.toggle then "On" else "Off") h.alt h.lastSt
    cases hb : st.toggle <;> simp
  · rw [hrows]
    rw [List.getLast?_concat]
    have htog : (change_system_state now st).toggle = !st.toggle := rfl
    rw [htog]
    cases hb : st.toggle <;> simp
  · rw [hrows]
    have hb : (change_system_state now st).bytesSent = st.bytesSent + 1 := rfl
    rw [hb, List.length_append, List.length_singleton, h.lenBytes]
  · rw [hrows, List.length_append, List.length_singleton]
  · rw [hrows]
    have hw : (change_system_state now st).writes =
        st.writes ++ [st.rows ++ [{ ts := now, state := if st.toggle then "Off" else "On" }]] := rfl
    rw [hw, h.wr, tablePrefixes_concat]
  · rw [hrows]
    intro r hr
    rcases List.mem_append.mp hr with hl | hl
    · exact h.states r hl
    · rw [List.mem_singleton] at hl
      rw [hl]
      cases st.toggle <;> simp

end TS

namespace TS

/-- The invariant holds after the initial state change. -/
theorem inv_loggerInit (t0 : ℤ) : Inv (loggerInit t0) := by
  have hrows : (loggerInit t0).rows = [{ ts := t0, state := "On" }] := rfl
  refine ⟨?_, ?_, ?_, ?_, ?_, ?_, ?_, ?_⟩
  · rw [hrows]; simp
  · rw [hrows]; exact List.chain'_singleton _
  · rfl
  · rfl
  · rfl
  · rfl
  · rfl
  · rw [hrows]
    intro r hr
    rw [List.mem_singleton] at hr
    rw [hr]
    left; rfl

/-- A manual-override firing preserves the invariant: the cycle counter
and the automatic-transition count are untouched, the manual count goes
up by one. -/
theorem inv_manual (now : ℤ) (st : CState) (h : Inv st) :
    Inv { change_system_state now st with manualFired := st.manualFired + 1 } := by
  obtain ⟨h1, h2, h3, h4, h5, h6, h7⟩ := inv_change now st h
  refine ⟨h1, h2, h3, h4, ?_, ?_, h6, h7⟩
  · show (change_system_state now st).rows.length = 1 + st.autoFired + (st.manualFired + 1)
    rw [h5, h.lenCount]
    omega
  · exact h.cyc

/-- An automatic firing preserves the invariant: the cycle counter and
the automatic-transition count both go up by one. -/
theorem inv_auto (now : ℤ) (st : CState) (h : Inv st) :
    Inv { change_system_state now st with
            cycleN := st.cycleN + 1, autoFired := st.autoFired + 1 } := by
  obtain ⟨h1, h2, h3, h4, h5, h6, h7⟩ := inv_change now st h
  refine ⟨h1, h2, h3, h4, ?_, ?_, h6, h7⟩
  · show (change_system_state now st).rows.length = 1 + (st.autoFired + 1) + st.manualFired
    rw [h5, h.lenCount]
    omega
  · show st.cycleN + 1 = 1 + (st.autoFired + 1)
    rw [h.cyc]
    omega

/-- `loopStep` on an iteration with a pending key, written out. -/
theorem loopStep_key (pm : ℤ) (st : CState) (now : ℤ) (k : ℕ) :
    loopStep pm st { now := now, key := some k } =
      if st.cycleN < 20 then
        if k = 48 then
          { change_system_state now st with manualFired := st.manualFired + 1 }
        else st
      else st := rfl

/-- `loopStep` on an iteration with no pending key, written out. -/
theorem loopStep_nokey (pm : ℤ) (st : CState) (now : ℤ) :
    loopStep pm st { now := now, key := none } =
      if st.cycleN < 20 then
        if pm * 60 ≤ now - st.lastChange then
          { change_system_state now st with
              cycleN := st.cycleN + 1, autoFired := st.autoFired + 1 }
        else st
      else st := rfl

/-- One loop iteration preserves the invariant. -/
theorem inv_loopStep (pm : ℤ) (st : CState) (ev : Event) (h : Inv st) :
    Inv (loopStep pm st ev) := by
  obtain ⟨now, key⟩ := ev
  cases key with
  | some k =>
    rw [loopStep_key]
    split
    · split
      · exact inv_manual now st h
      · exact h
    · exact h
  | none =>
    rw [loopStep_nokey]
    split
    · split
      · exact inv_auto now st h
      · exact h
    · exact h

/-- Running the loop over any event trace preserves the invariant. -/
theorem inv_runLoop (pm : ℤ) (st : CState) (evs : List Event) (h : Inv st) :
    Inv (runLoop pm st evs) := by
  induction evs generalizing st with
  | nil => exact h
  | cons e es ih =>
    have hstep : runLoop pm st (e :: es) = runLoop pm (loopStep pm st e) es := rfl
    rw [hstep]
    exact ih _ (inv_loopStep pm st e h)

/-- Once the counter has reached 20 an iteration does nothing: this is
the loop's exit. -/
theorem loopStep_done (pm : ℤ) (st : CState) (ev : Event) (h : 20 ≤ st.cycleN) :
    loopStep pm st ev = st := by
  unfold loopStep
  rw [if_neg (by omega)]

end TS

namespace TS

/-- `change_system_state` keeps the log/file accounting: it sends one
byte, appends one row, and rewrites the whole table once. -/
theorem persist_change (now : ℤ) (st : CState) (h : persistConsistent st) :
    persistConsistent (change_system_state now st) := by
  obtain ⟨hlen, hwr⟩ := h
  constructor
  · show (st.rows ++ [_]).length = st.bytesSent + 1
    rw [List.length_append, List.length_singleton, hlen]
  · show st.writes ++ [st.rows ++ [_]] = tablePrefixes (st.rows ++ [_])
    rw [hwr, tablePrefixes_concat]

/-- A raised exception absorbs every later iteration. -/
theorem loopStepF_error (pm : ℤ) (ok : ℕ → Bool) (s : CState) (ev : Event) :
    loopStepF pm ok (Except.error s) ev = Except.error s := rfl

/-- A live fallible iteration with a pending key, written out. -/
theorem loopStepF_key (pm : ℤ) (ok : ℕ → Bool) (st : CState) (now : ℤ) (k : ℕ) :
    loopStepF pm ok (Except.ok st) { now := now, key := some k } =
      if st.cycleN < 20 then
        if k = 48 then
          if ok st.bytesSent then
            Except.ok { change_system_state now st with manualFired := st.manualFired + 1 }
          else Except.error st
        else Except.ok st
      else Except.ok st := by
  cases hok : ok st.bytesSent <;> simp [loopStepF, change_f, hok]

/-- A live fallible iteration with no pending key, written out. -/
theorem loopStepF_nokey (pm : ℤ) (ok : ℕ → Bool) (st : CState) (now : ℤ) :
    loopStepF pm ok (Except.ok st) { now := now, key := none } =
      if st.cycleN < 20 then
        if pm * 60 ≤ now - st.lastChange then
          if ok st.bytesSent then
            Except.ok { change_system_state now st with
                          cycleN := st.cycleN + 1, autoFired := st.autoFired + 1 }
          else Except.error st
        else Except.ok st
      else Except.ok st := by
  cases hok : ok st.bytesSent <;> simp [loopStepF, change_f, hok]

/-- A fallible iteration starting from a consistent live state either
stays live and consistent, or raises on the very send it attempted:
the error state is consistent and its `bytesSent` indexes the rejected
send. -/
theorem loopStepF_cases (pm : ℤ) (ok : ℕ → Bool) (st : CState) (ev : Event)
    (h : persistConsistent st) :
    (∀ s, loopStepF pm ok (Except.ok st) ev = Except.ok s → persistConsistent s) ∧
    (∀ s, loopStepF pm ok (Except.ok st) ev = Except.error s →
      persistConsistent s ∧ ok s.bytesSent = false) := by
  obtain ⟨now, key⟩ := ev
  have hman : ∀ s, persistConsistent (change_system_state now st) →
      persistConsistent { change_system_state now st with manualFired := s } := by
    intro s hc
    exact hc
  cases key with
  | some k =>
    rw [loopStepF_key]
    by_cases hcyc : st.cycleN < 20
    · rw [if_pos hcyc]
      by_cases h48 : k = 48
      · rw [if_pos h48]
        by_cases hok : ok st.bytesSent
        · rw [if_pos hok]
          constructor
          · intro s hs
            injection hs with hs2
            rw [← hs2]
            exact hman _ (persist_change now st h)
          · intro s hs
            simp at hs
        · rw [if_neg hok]
          constructor
          · intro s hs
            simp at hs
          · intro s hs
            injection hs with hs2
            rw [← hs2]
            exact ⟨h, by simpa using hok⟩
      · rw [if_neg h48]
        constructor
        · intro s hs
          injection hs with hs2
          rw [← hs2]
          exact h
        · intro s hs
          simp at hs
    · rw [if_neg hcyc]
      constructor
      · intro s hs
        injection hs with hs2
        rw [← hs2]
        exact h
      · intro s hs
        simp at hs
  | none =>
    rw [loopStepF_nokey]
    by_cases hcyc : st.cycleN < 20
    · rw [if_pos hcyc]
      by_cases helap : pm * 60 ≤ now - st.lastChange
      · rw [if_pos helap]
        by_cases hok : ok st.bytesSent
        · rw [if_pos hok]
          constructor
          · intro s hs
            injection hs with hs2
            rw [← hs2]
            exact persist_change now st h
          · intro s hs
            simp at hs
        · rw [if_neg hok]
          constructor
          · intro s hs
            simp at hs
          · intro s hs
            injection hs with hs2
            rw [← hs2]
            exact ⟨h, by simpa using hok⟩
      · rw [if_neg helap]
        constructor
        · intro s hs
          injection hs with hs2
          rw [← hs2]
          exact h
        · intro s hs
          simp at hs
    · rw [if_neg hcyc]
      constructor
      · intro s hs
        injection hs with hs2
        rw [← hs2]
        exact h
      · intro s hs
        simp at hs

/-- Folding the fallible loop: if the run ends in an error, the error
state is consistent and names the rejected send. -/
theorem foldF_error (pm : ℤ) (ok : ℕ → Bool) (evs : List Event) :
    ∀ e : Except CState CState,
      (∀ s, e = Except.ok s → persistConsistent s) →
      (∀ s, e = Except.error s → persistConsistent s ∧ ok s.bytesSent = false) →
      ∀ st, evs.foldl (loopStepF pm ok) e = Except.error st →
        persistConsistent st ∧ ok st.bytesSent = false := by
  induction evs with
  | nil =>
    intro e _ herr st hfold
    exact herr st hfold
  | cons ev evs ih =>
    intro e hok herr st hfold
    cases e with
    | error s =>
      have hstep : (ev :: evs).foldl (loopStepF pm ok) (Except.error s) =
          evs.foldl (loopStepF pm ok) (Except.error s) := by
        show evs.foldl (loopStepF pm ok) (loopStepF pm ok (Except.error s) ev) =
          evs.foldl (loopStepF pm ok) (Except.error s)
        rw [loopStepF_error]
      rw [hstep] at hfold
      exact ih (Except.error s) (by intro u hu; simp at hu) herr st hfold
    | ok s =>
      have hs := hok s rfl
      have hcases := loopStepF_cases pm ok s ev hs
      have hstep : (ev :: evs).foldl (loopStepF pm ok) (Except.ok s) =
          evs.foldl (loopStepF pm ok) (loopStepF pm ok (Except.ok s) ev) := rfl
      rw [hstep] at hfold
      exact ih (loopStepF pm ok (Except.ok s) ev)
        (fun u hu => hcases.1 u hu) (fun u hu => hcases.2 u hu) st hfold

/-- Every digit character the padding functions emit is a decimal
digit. -/
theorem digitChar_isDigit (n : ℕ) : (digitChar n).isDigit = true := by
  have h : n % 10 < 10 := Nat.mod_lt _ (by norm_num)
  unfold digitChar
  set m := n % 10 with hm
  interval_cases m <;> decide

/-- `get_timestamp` always renders the `YYYY-MM-DD HH:MM:SS` shape. -/
theorem get_timestamp_format (t : DateTime) :
    checkTimestampFormat (get_timestamp t) = true := by
  have hdata : (get_timestamp t).data =
      [digitChar (t.year / 1000), digitChar (t.year / 100), digitChar (t.year / 10),
       digitChar t.year, '-', digitChar (t.month / 10), digitChar t.month, '-',
       digitChar (t.day / 10), digitChar t.day, ' ', digitChar (t.hour / 10),
       digitChar t.hour, ':', digitChar (t.minute / 10), digitChar t.minute, ':',
       digitChar (t.second / 10), digitChar t.second] := rfl
  unfold checkTimestampFormat
  rw [hdata]
  simp [digitChar_isDigit]

end TS

namespace TS

/-- Claim C1 as stated is false on the code: in a complete run with no
manual overrides, only 19 transitions fire because the command cycle
period elapsed (the ones that increment `cycle_n`); the remaining
automatic transition is the unconditional initial one fired before the
loop. -/
theorem c1_counterexample :
    (runLoop 1 (loggerInit 0) wEvs).cycleN = 20 ∧
    (runLoop 1 (loggerInit 0) wEvs).manualFired = 0 ∧
    (runLoop 1 (loggerInit 0) wEvs).autoFired = 19 ∧
    ¬ (runLoop 1 (loggerInit 0) wEvs).autoFired = 20 := by decide

/-- Claim C1 (amended): over a complete run the program fires 20
automatic transitions — one unconditional initial one plus exactly 19
fired because the command cycle period elapsed — plus any number of
manual overrides and exactly one synthetic final row; a pending key
never changes the cycle counter, and the loop terminates (absorbs every
further event) once the counter reaches 20. -/
theorem c1_automatic_transitions (pm t0 sNow : ℤ) (evs : List Event)
    (h : (runLoop pm (loggerInit t0) evs).cycleN = 20) :
    (runLoop pm (loggerInit t0) evs).autoFired = 19 ∧
    (logger pm t0 evs sNow).rows.length =
      1 + (runLoop pm (loggerInit t0) evs).autoFired +
        (runLoop pm (loggerInit t0) evs).manualFired + 1 ∧
    (∀ st ev k, ev.key = some k → (loopStep pm st ev).cycleN = st.cycleN) ∧
    (∀ ev, loopStep pm (runLoop pm (loggerInit t0) evs) ev =
      runLoop pm (loggerInit t0) evs) := by
  have hinv := inv_runLoop pm (loggerInit t0) evs (inv_loggerInit t0)
  have hc := hinv.cyc
  refine ⟨by omega, ?_, ?_, ?_⟩
  · have hrows : (logger pm t0 evs sNow).rows =
        (runLoop pm (loggerInit t0) evs).rows ++
          [{ ts := sNow + pm * 60 / 2, state := "On" }] := rfl
    rw [hrows, List.length_append, List.length_singleton, hinv.lenCount]
  · intro st ev k hk
    obtain ⟨now, key⟩ := ev
    cases key with
    | some k2 =>
      rw [loopStep_key]
      by_cases hcyc : st.cycleN < 20
      · rw [if_pos hcyc]
        by_cases h48 : k2 = 48
        · rw [if_pos h48]
          rfl
        · rw [if_neg h48]
      · rw [if_neg hcyc]
    | none => simp at hk
  · intro ev
    exact loopStep_done pm _ ev (by omega)

/-- Witness for C1's amended theorem at a concrete complete run. -/
theorem c1_witness : (runLoop 1 (loggerInit 0) wEvs).autoFired = 19 :=
  (c1_automatic_transitions 1 0 1140 wEvs (by decide)).1

/-- Claim C2: consecutive rows of the transition log carry different
states, except for the final synthetic row, which always reads On. -/
theorem c2_alternation (pm t0 sNow : ℤ) (evs : List Event)
    (h : (runLoop pm (loggerInit t0) evs).cycleN = 20) :
    List.Chain' (fun a b => a.state ≠ b.state) (logger pm t0 evs sNow).rows.dropLast ∧
    (logger pm t0 evs sNow).rows.getLast?.map Row.state = some "On" := by
  have hinv := inv_runLoop pm (loggerInit t0) evs (inv_loggerInit t0)
  have hrows : (logger pm t0 evs sNow).rows =
      (runLoop pm (loggerInit t0) evs).rows ++
        [{ ts := sNow + pm * 60 / 2, state := "On" }] := rfl
  constructor
  · rw [hrows, List.dropLast_concat]
    exact hinv.alt
  · rw [hrows, List.getLast?_concat]
    rfl

/-- Witness for C2 at a concrete complete run. -/
theorem c2_witness :
    List.Chain' (fun a b => a.state ≠ b.state) (logger 1 0 wEvs 1140).rows.dropLast ∧
    (logger 1 0 wEvs 1140).rows.getLast?.map Row.state = some "On" :=
  c2_alternation 1 0 1140 wEvs (by decide)

/-- Claim C3 as stated is false on the code: the first fired transition
(from the initial Off state) is logged with resulting state On, not
Off (the `else` branch of `change_system_state` appends the string
`'On'`; only its comment says Off). -/
theorem c3_counterexample :
    (loggerInit 0).rows.map Row.state = ["On"] ∧
    ¬ (loggerInit 0).rows.map Row.state = ["Off"] := by decide

/-- Claim C3 (amended): starting from the initial Off state, the very
first fired transition is recorded in the log with resulting state
On. -/
theorem c3_first_transition_on (t0 : ℤ) :
    (loggerInit t0).rows.map Row.state = ["On"] := rfl

/-- Claim C4 as stated is false on the code: the synthetic final
timestamp is computed from `datetime.datetime.now()` at loop exit, not
from the recorded time of the last transition; when the loop exits one
second after the last transition the two differ. -/
theorem c4_counterexample :
    (runLoop 1 (loggerInit 0) wEvs).cycleN = 20 ∧
    (runLoop 1 (loggerInit 0) wEvs).lastChange = 1140 ∧
    (logger 1 0 wEvs 1141).rows.getLast?.map Row.ts = some 1171 ∧
    ¬ (logger 1 0 wEvs 1141).rows.getLast?.map Row.ts =
        some ((runLoop 1 (loggerInit 0) wEvs).lastChange + 1 * 60 / 2) := by decide

/-- Claim C4 (amended): upon the counter reaching 20 the loop stops
consuming events and exactly one synthetic final row is appended, with
timestamp equal to the clock value read at loop exit plus half the
command cycle period, state On regardless of the current state, and the
log is persisted once more. -/
theorem c4_shutdown (pm t0 sNow : ℤ) (evs : List Event)
    (h : (runLoop pm (loggerInit t0) evs).cycleN = 20) :
    (logger pm t0 evs sNow).rows =
      (runLoop pm (loggerInit t0) evs).rows ++
        [{ ts := sNow + pm * 60 / 2, state := "On" }] ∧
    (logger pm t0 evs sNow).writes =
      (runLoop pm (loggerInit t0) evs).writes ++ [(logger pm t0 evs sNow).rows] ∧
    (∀ ev, loopStep pm (runLoop pm (loggerInit t0) evs) ev =
      runLoop pm (loggerInit t0) evs) := by
  refine ⟨rfl, rfl, ?_⟩
  intro ev
  exact loopStep_done pm _ ev (by omega)

/-- Witness for C4's amended theorem at a concrete complete run whose
loop exit happens one second after the last transition. -/
theorem c4_witness :
    (logger 1 0 wEvs 1141).rows =
      (runLoop 1 (loggerInit 0) wEvs).rows ++
        [{ ts := 1141 + 1 * 60 / 2, state := "On" }] :=
  (c4_shutdown 1 0 1141 wEvs (by decide)).1

/-- Claim C5: in an iteration where the override key `b'0'` is pending
and the command cycle period has also elapsed, exactly one transition
fires (one row, one byte) and it is manual: the cycle counter and the
automatic count are unchanged. -/
theorem c5_priority (pm : ℤ) (st : CState) (now : ℤ)
    (hrun : st.cycleN < 20) (helapsed : pm * 60 ≤ now - st.lastChange) :
    loopStep pm st { now := now, key := some 48 } =
      { change_system_state now st with manualFired := st.manualFired + 1 } ∧
    (loopStep pm st { now := now, key := some 48 }).rows.length = st.rows.length + 1 ∧
    (loopStep pm st { now := now, key := some 48 }).bytesSent = st.bytesSent + 1 ∧
    (loopStep pm st { now := now, key := some 48 }).cycleN = st.cycleN ∧
    (loopStep pm st { now := now, key := some 48 }).autoFired = st.autoFired ∧
    (loopStep pm st { now := now, key := some 48 }).manualFired = st.manualFired + 1 := by
  have he : loopStep pm st { now := now, key := some 48 } =
      { change_system_state now st with manualFired := st.manualFired + 1 } := by
    rw [loopStep_key, if_pos hrun, if_pos rfl]
  refine ⟨he, ?_, ?_, ?_, ?_, ?_⟩ <;> rw [he] <;> try rfl
  show (st.rows ++ [_]).length = st.rows.length + 1
  rw [List.length_append, List.length_singleton]

/-- Witness for C5 in a concrete state where both triggers are true. -/
theorem c5_witness :
    loopStep 1 (loggerInit 0) { now := 60, key := some 48 } =
      { change_system_state 60 (loggerInit 0) with
          manualFired := (loggerInit 0).manualFired + 1 } :=
  (c5_priority 1 (loggerInit 0) 60 (by decide) (by decide)).1

/-- Claim C6: if the serial write of the nth transition is rejected,
the run aborts in a state whose log still has one row per accepted
send (the n-1 earlier ones), whose persisted snapshots are exactly the
tables of those rows, and whose next send index is the rejected one —
no row is ever recorded before its command byte is accepted. -/
theorem c6_send_failure (pm : ℤ) (ok : ℕ → Bool) (t0 : ℤ) (evs : List Event) (st : CState)
    (h : runF pm ok t0 evs = Except.error st) :
    st.rows.length = st.bytesSent ∧
    st.writes = tablePrefixes st.rows ∧
    ok st.bytesSent = false := by
  cases h0 : ok 0 with
  | false =>
    have he0 : runF pm ok t0 evs =
        evs.foldl (loopStepF pm ok) (Except.error initState) := by
      unfold runF change_f
      rw [h0]
      rfl
    rw [he0] at h
    obtain ⟨⟨h1, h2⟩, h3⟩ := foldF_error pm ok evs (Except.error initState)
      (by intro s hs; simp at hs)
      (by
        intro s hs
        injection hs with hs2
        rw [← hs2]
        exact ⟨⟨rfl, rfl⟩, h0⟩)
      st h
    exact ⟨h1, h2, h3⟩
  | true =>
    have he0 : runF pm ok t0 evs =
        evs.foldl (loopStepF pm ok)
          (Except.ok { change_system_state t0 initState with cycleN := 1 }) := by
      unfold runF change_f
      rw [h0]
      rfl
    rw [he0] at h
    obtain ⟨⟨h1, h2⟩, h3⟩ := foldF_error pm ok evs
      (Except.ok { change_system_state t0 initState with cycleN := 1 })
      (by
        intro s hs
        injection hs with hs2
        rw [← hs2]
        exact ⟨rfl, rfl⟩)
      (by intro s hs; simp at hs)
      st h
    exact ⟨h1, h2, h3⟩

/-- Witness for C6: the device rejects the fifth send (index 4); the
run aborts with exactly the four previously accepted transitions logged
and persisted. -/
theorem c6_witness :
    (exceptState (runF 1 (fun i => decide (i < 4)) 0 wEvs)).rows.length =
      (exceptState (runF 1 (fun i => decide (i < 4)) 0 wEvs)).bytesSent ∧
    (exceptState (runF 1 (fun i => decide (i < 4)) 0 wEvs)).writes =
      tablePrefixes (exceptState (runF 1 (fun i => decide (i < 4)) 0 wEvs)).rows ∧
    (fun i => decide (i < 4)) (exceptState (runF 1 (fun i => decide (i < 4)) 0 wEvs)).bytesSent
      = false :=
  c6_send_failure 1 (fun i => decide (i < 4)) 0 wEvs
    (exceptState (runF 1 (fun i => decide (i < 4)) 0 wEvs)) rfl

/-- Claim C7: every fired transition sends exactly one byte and appends
exactly one row, the synthetic final row sends none, so over a run the
bytes sent equal the rows minus the one synthetic row. -/
theorem c7_bytes_rows (pm t0 sNow : ℤ) (evs : List Event)
    (h : (runLoop pm (loggerInit t0) evs).cycleN = 20) :
    (logger pm t0 evs sNow).rows.length = (logger pm t0 evs sNow).bytesSent + 1 ∧
    (∀ now s, (change_system_state now s).bytesSent = s.bytesSent + 1 ∧
      (change_system_state now s).rows.length = s.rows.length + 1) ∧
    (logger pm t0 evs sNow).bytesSent = (runLoop pm (loggerInit t0) evs).bytesSent := by
  have hinv := inv_runLoop pm (loggerInit t0) evs (inv_loggerInit t0)
  refine ⟨?_, ?_, rfl⟩
  · have hrows : (logger pm t0 evs sNow).rows =
        (runLoop pm (loggerInit t0) evs).rows ++
          [{ ts := sNow + pm * 60 / 2, state := "On" }] := rfl
    rw [hrows, List.length_append, List.length_singleton, hinv.lenBytes]
    rfl
  · intro now s
    refine ⟨rfl, ?_⟩
    show (s.rows ++ [_]).length = s.rows.length + 1
    rw [List.length_append, List.length_singleton]

/-- Witness for C7 at a concrete complete run. -/
theorem c7_witness :
    (logger 1 0 wEvs 1140).rows.length = (logger 1 0 wEvs 1140).bytesSent + 1 :=
  (c7_bytes_rows 1 0 1140 wEvs (by decide)).1

/-- Claim C8 as stated is false on the code: with a 60-second command
cycle period and no overrides, the first transition fires at the very
start of the run (clock 0), not after 60 seconds have elapsed. -/
theorem c8_counterexample :
    (loggerInit 0).rows.map Row.ts = [0] ∧ ¬ (1 * 60 ≤ (0:ℤ) - 0) := by decide

/-- Claim C8 (amended): the first transition fires unconditionally at
the start of the run, at the start's clock value; only the subsequent
in-loop automatic transitions are gated by the elapsed-time rule, each
firing exactly when the command cycle period has elapsed since the last
transition. -/
theorem c8_schedule (pm t0 : ℤ) :
    (loggerInit t0).rows.map Row.ts = [t0] ∧
    (∀ st now, st.cycleN < 20 → ¬ pm * 60 ≤ now - st.lastChange →
      loopStep pm st { now := now, key := none } = st) ∧
    (∀ st now, st.cycleN < 20 → pm * 60 ≤ now - st.lastChange →
      (loopStep pm st { now := now, key := none }).rows =
        st.rows ++ [{ ts := now, state := if st.toggle then "Off" else "On" }]) := by
  refine ⟨rfl, ?_, ?_⟩
  · intro st now hcyc hne
    rw [loopStep_nokey, if_pos hcyc, if_neg hne]
  · intro st now hcyc he
    rw [loopStep_nokey, if_pos hcyc, if_pos he]
    rfl

/-- Witness for C8's amended theorem: before the period has elapsed no
automatic transition fires. -/
theorem c8_witness :
    loopStep 1 (loggerInit 0) { now := 30, key := none } = loggerInit 0 :=
  (c8_schedule 1 0).2.1 (loggerInit 0) 30 (by decide) (by decide)

/-- Claim C9: every snapshot written is the full table as of that
write (one write per row, so one after every transition and one more at
shutdown, each overwriting the file), the CSV rendering puts the header
`Timestamp,System State` first, every state cell is On or Off, and the
timestamp rendering of any real datetime has the shape
`YYYY-MM-DD HH:MM:SS`. -/
theorem c9_persistence (pm t0 sNow : ℤ) (evs : List Event) (fmt : ℤ → String)
    (h : (runLoop pm (loggerInit t0) evs).cycleN = 20) :
    (logger pm t0 evs sNow).writes = tablePrefixes (logger pm t0 evs sNow).rows ∧
    (logger pm t0 evs sNow).writes.getLast? = some (logger pm t0 evs sNow).rows ∧
    (to_csv fmt (logger pm t0 evs sNow).rows).head? = some "Timestamp,System State" ∧
    statesOk (logger pm t0 evs sNow).rows ∧
    (∀ t : DateTime, validDt t → checkTimestampFormat (get_timestamp t) = true) := by
  have hinv := inv_runLoop pm (loggerInit t0) evs (inv_loggerInit t0)
  have hrows : (logger pm t0 evs sNow).rows =
      (runLoop pm (loggerInit t0) evs).rows ++
        [{ ts := sNow + pm * 60 / 2, state := "On" }] := rfl
  have hwr : (logger pm t0 evs sNow).writes =
      (runLoop pm (loggerInit t0) evs).writes ++
        [(runLoop pm (loggerInit t0) evs).rows ++
          [{ ts := sNow + pm * 60 / 2, state := "On" }]] := rfl
  refine ⟨?_, ?_, rfl, ?_, ?_⟩
  · rw [hwr, hrows, hinv.wr, tablePrefixes_concat]
  · rw [hwr, hrows, List.getLast?_concat]
  · rw [hrows]
    intro r hr
    rcases List.mem_append.mp hr with hl | hl
    · exact hinv.states r hl
    · rw [List.mem_singleton] at hl
      rw [hl]
      left
      rfl
  · intro t _
    exact get_timestamp_format t

/-- Witness for C9 at a concrete complete run. -/
theorem c9_witness :
    (logger 1 0 wEvs 1140).writes = tablePrefixes (logger 1 0 wEvs 1140).rows :=
  (c9_persistence 1 0 1140 wEvs (fun _ => "") (by decide)).1

/-- Claim C10: when a key other than `b'0'` is pending, the iteration
fires nothing at all — the state is unchanged whatever the clock says,
because consuming the key skips the elapsed-time check. -/
theorem c10_pending_key (pm : ℤ) (st : CState) (now : ℤ) (k : ℕ) (h48 : k ≠ 48) :
    loopStep pm st { now := now, key := some k } = st := by
  rw [loopStep_key]
  by_cases hcyc : st.cycleN < 20
  · rw [if_pos hcyc, if_neg h48]
  · rw [if_neg hcyc]

/-- Witness for C10: a pending key `1` at a clock far past the deadline
fires nothing. -/
theorem c10_witness :
    loopStep 1 (loggerInit 0) { now := 1000, key := some 49 } = loggerInit 0 :=
  c10_pending_key 1 (loggerInit 0) 1000 49 (by decide)

end TS
